import Mathlib

/-!
Shallow embedding of the Trustchain verifiable-commitment engine
(trustchain-core/src/commitment.rs, trustchain-core/src/verifier.rs,
trustchain-ion/src/commitment.rs) and proofs about it.

Rust `serde_json::Value` is modelled by the mutual inductive `Json`;
machine byte sequences by `List Nat`; fallible Rust code by `Except`;
a Rust panic (an `unwrap` of `None`) by `Option.none` in the result.
Function-pointer fields of the Rust traits become function-valued fields
of structures.  External crates (bitcoin deserialisation, `std` UTF-8
decoding, gzip, `serde_json` parsing) are passed as explicit function
parameters and constrained only where a property constrains them.
-/

mutual

/-- Model of `serde_json::Value`.  Arrays and objects use the mutual
list types `JsonList` and `JsonObj` so that equality is decidable. -/
inductive Json where
  | null
  | bool (b : Bool)
  | num (n : Int)
  | str (s : String)
  | arr (xs : JsonList)
  | obj (kvs : JsonObj)
deriving DecidableEq

/-- Model of the element list of a JSON array. -/
inductive JsonList where
  | nil
  | cons (hd : Json) (tl : JsonList)
deriving DecidableEq

/-- Model of the key-value list of a JSON object. -/
inductive JsonObj where
  | nil
  | cons (key : String) (val : Json) (tl : JsonObj)
deriving DecidableEq

end

/-- Model of `CommitmentError` (trustchain-core/src/commitment.rs lines 13-29). -/
inductive CommitmentError where
  | DataDecodingError
  | FailedToComputeHash
  | FailedHashVerification (context : String)
  | FailedContentVerification (context : String)
  | EmptyIteratedCommitment
deriving DecidableEq

mutual

/-- Modelled from the spec: the structural containment relation `⊑` used by
`verify_content` (the function `json_contains` lives in
trustchain-core/src/utils.rs, which is not among the repository files given;
the spec defines it: scalar values match iff equal; an object `E` is
contained in `D` iff every key of `E` is present in `D` with `E[k] ⊑ D[k]`;
an array `E` is contained in `D` iff there is an order-preserving injection
i→j such that `E[i] ⊑ D[j]`).  `json_contains candidate expected` decides
`expected ⊑ candidate`. -/
def json_contains : Json → Json → Bool
  | .null, .null => true
  | .bool a, .bool b => a == b
  | .num a, .num b => a == b
  | .str a, .str b => a == b
  | .arr ds, .arr es => jsonListContains ds es
  | .obj ds, .obj es => jsonObjContains ds es
  | _, _ => false

/-- Modelled from the spec: order-preserving subsequence containment of the
expected array (second argument) in the candidate array (first argument). -/
def jsonListContains : JsonList → JsonList → Bool
  | _, .nil => true
  | .nil, .cons _ _ => false
  | .cons d ds, .cons e es =>
      (json_contains d e && jsonListContains ds es) || jsonListContains ds (.cons e es)

/-- Modelled from the spec: key-wise subset containment of the expected
object fields (second argument) in the candidate object (first argument). -/
def jsonObjContains : JsonObj → JsonObj → Bool
  | _, .nil => true
  | ds, .cons k v es => jsonObjLookupContains ds k v && jsonObjContains ds es

/-- Modelled from the spec: the key `k` is present in the candidate object
with a value containing `v`. -/
def jsonObjLookupContains : JsonObj → String → Json → Bool
  | .nil, _, _ => false
  | .cons k' v' tl, k, v => if k' == k then json_contains v' v else jsonObjLookupContains tl k v

end

/-- Model of a boxed `dyn Commitment` trait object of trustchain-core
(trustchain-core/src/commitment.rs lines 32-56): the `hasher` and
`decode_candidate_data` function pointers, the candidate bytes and the
expected data.  `typeName` models the string returned by
`crate::utils::type_of` on the concrete implementing type. -/
structure Commitment where
  hasher : List Nat → Except CommitmentError String
  candidate_data : List Nat
  decode_candidate_data : List Nat → Except CommitmentError Json
  expected_data : Json
  typeName : String

/-- Model of the provided method `TrivialCommitment::hash`
(trustchain-core/src/commitment.rs lines 40-43): the hasher applied to the
candidate data. -/
def Commitment.hash (c : Commitment) : Except CommitmentError String :=
  c.hasher c.candidate_data

/-- Model of the provided method `Commitment::verify_content`
(trustchain-core/src/commitment.rs lines 59-74). -/
def Commitment.verify_content (c : Commitment) : Except CommitmentError Unit :=
  match c.decode_candidate_data c.candidate_data with
  | .error _ => .error .DataDecodingError
  | .ok candidate =>
      if json_contains candidate c.expected_data then .ok ()
      else .error (.FailedContentVerification c.typeName)

/-- Model of the provided method `Commitment::verify`
(trustchain-core/src/commitment.rs lines 77-86). -/
def Commitment.verify (c : Commitment) (target : String) : Except CommitmentError Unit :=
  match c.verify_content with
  | .error e => .error e
  | .ok _ =>
      match c.hash with
      | .error e => .error e
      | .ok h => if h ≠ target then .error (.FailedHashVerification c.typeName) else .ok ()

/-- Model of `ChainedCommitment` (trustchain-core/src/commitment.rs
lines 111-113): the ordered sequence of constituent commitments. -/
structure ChainedCommitment where
  commitments : List Commitment

/-- Model of the string `crate::utils::type_of` yields for the concrete
type `ChainedCommitment`, used in the errors its `verify_content` raises. -/
def chainedCommitmentTypeName : String := "ChainedCommitment"

/-- Model of `<ChainedCommitment as TrivialCommitment>::candidate_data`
(trustchain-core/src/commitment.rs lines 131-134): the first constituent
commitment's candidate data; the `first().unwrap()` panics on an empty
sequence, modelled by `none`. -/
def ChainedCommitment.candidate_data (ch : ChainedCommitment) : Option (List Nat) :=
  (ch.commitments.head?).map Commitment.candidate_data

/-- Model of `<ChainedCommitment as TrivialCommitment>::hash`
(trustchain-core/src/commitment.rs lines 140-143): the hash of the last
commitment in the sequence; the `last().unwrap()` panics on an empty
sequence, modelled by `none`. -/
def ChainedCommitment.hash (ch : ChainedCommitment) : Option (Except CommitmentError String) :=
  (ch.commitments.getLast?).map Commitment.hash

/-- Model of `<ChainedCommitment as Commitment>::expected_data`
(trustchain-core/src/commitment.rs lines 151-157): the first constituent
commitment's expected data; panics on an empty sequence, modelled by `none`. -/
def ChainedCommitment.expected_data (ch : ChainedCommitment) : Option Json :=
  (ch.commitments.head?).map Commitment.expected_data

/-- Model of `<ChainedCommitment as TrivialCommitment>::to_commitment`
(trustchain-core/src/commitment.rs lines 145-147): returns `self`, the
passed expected data is dropped. -/
def ChainedCommitment.to_commitment (ch : ChainedCommitment) (expected_data : Json) :
    ChainedCommitment :=
  ch

/-- Model of the provided `Commitment::verify_content` as it computes on a
`ChainedCommitment`: `decode_candidate_data`, `candidate_data` and
`expected_data` all delegate to the first constituent (each panicking on an
empty sequence, modelled by `none`), while `type_of(&self)` names
`ChainedCommitment`. -/
def ChainedCommitment.verify_content (ch : ChainedCommitment) :
    Option (Except CommitmentError Unit) :=
  match ch.commitments.head? with
  | none => none
  | some c0 =>
      some (match c0.decode_candidate_data c0.candidate_data with
        | .error _ => .error .DataDecodingError
        | .ok candidate =>
            if json_contains candidate c0.expected_data then .ok ()
            else .error (.FailedContentVerification chainedCommitmentTypeName))

/-- Model of the `while let` walk of `ChainedCommitment::verify`
(trustchain-core/src/commitment.rs lines 168-186): the current commitment is
verified against the string value of the next one's expected data (a
non-string expected data fails with `DataDecodingError`), and the last
commitment against the given target. -/
def chainWalk (target : String) : Commitment → List Commitment → Except CommitmentError Unit
  | c, [] => c.verify target
  | c, next :: rest =>
      match next.expected_data with
      | .str this_target =>
          match c.verify this_target with
          | .error e => .error e
          | .ok _ => chainWalk target next rest
      | _ => .error .DataDecodingError

/-- Model of `<ChainedCommitment as Commitment>::verify`
(trustchain-core/src/commitment.rs lines 160-187): first the inherited
`verify_content` (which panics on an empty sequence, modelled by `none`),
then the emptiness check, then the sequential walk. -/
def ChainedCommitment.verify (ch : ChainedCommitment) (target : String) :
    Option (Except CommitmentError Unit) :=
  match ch.verify_content with
  | none => none
  | some (.error e) => some (.error e)
  | some (.ok _) =>
      if ch.commitments.length = 0 then some (.error .EmptyIteratedCommitment)
      else
        match ch.commitments with
        | [] => some (.error .EmptyIteratedCommitment)
        | c0 :: rest => some (chainWalk target c0 rest)

/-- Model of `ChainedCommitment::append` (trustchain-core/src/commitment.rs
lines 199-210).  A boxed `dyn TrivialCommitment` is modelled by its
`to_commitment` closure `promote : Json → Commitment` (together with
whatever hasher, candidate data and decoder that closure bakes into its
result).  `append` sets the expected data of the promoted commitment to the
JSON string of this chain's hash and pushes it; a failing `hash()` aborts. -/
def ChainedCommitment.append (ch : ChainedCommitment) (promote : Json → Commitment) :
    Option (Except CommitmentError ChainedCommitment) :=
  match ch.hash with
  | none => none
  | some (.error e) => some (.error e)
  | some (.ok h) =>
      some (.ok ⟨ch.commitments ++ [promote (.str h)]⟩)

/-- Model of `ssi::one_or_many::OneOrMany`. -/
inductive OneOrMany (α : Type) where
  | One (x : α)
  | Many (xs : List α)
deriving DecidableEq

/-- Model of the part of `ssi::did::Document` the verifier reads: the `id`
and the optional one-or-many `controller` field. -/
structure Document where
  id : String
  controller : Option (OneOrMany String)
deriving DecidableEq

/-- Model of `VerifierError` (trustchain-core/src/verifier.rs lines 21-46). -/
inductive VerifierError where
  | InvalidPayload (did : String)
  | InvalidSignature (did : String)
  | InvalidRoot (did : String)
  | UnresolvableDID (did : String)
  | ChainBuildFailure (detail : String)
  | InvalidChain (detail : String)
  | FailureToGetProof
  | FailureToGetController
deriving DecidableEq

/-- Model of `get_controller` (trustchain-core/src/verifier.rs lines 95-102):
the controller string when `doc.controller` is `Some(OneOrMany::One(_))`,
otherwise `FailureToGetController`. -/
def get_controller (doc : Document) : Except VerifierError String :=
  match doc.controller with
  | some (.One controller) => .ok controller
  | _ => .error .FailureToGetController

/-- Model of a boxed `dyn DIDCommitment` trait object
(trustchain-core/src/commitment.rs lines 213-228): a commitment together
with the DID and its document. -/
structure DIDCommitment extends Commitment where
  did : String
  did_document : Document

/-- Model of `TimestampCommitment` (trustchain-core/src/commitment.rs
lines 232-238). -/
structure TimestampCommitment where
  timestamp : Nat
  expected_data : Json
  hasher : List Nat → Except CommitmentError String
  candidate_data : List Nat
  decode_candidate_data : List Nat → Except CommitmentError Json

/-- Model of `TimestampCommitment::new` (trustchain-core/src/commitment.rs
lines 243-258): hasher, candidate data and decoder are copied from the given
`DIDCommitment`, the expected data is the JSON value of the Unix time. -/
def TimestampCommitment.new (did_commitment : DIDCommitment) (expected_data : Nat) :
    TimestampCommitment where
  timestamp := expected_data
  expected_data := .num expected_data
  hasher := did_commitment.hasher
  candidate_data := did_commitment.candidate_data
  decode_candidate_data := did_commitment.decode_candidate_data

/-- Model of the provided `TrivialCommitment::hash` on a
`TimestampCommitment`: the copied hasher applied to the copied candidate
data. -/
def TimestampCommitment.hash (t : TimestampCommitment) : Except CommitmentError String :=
  t.hasher t.candidate_data

/-- Model of `<TimestampCommitment as TrivialCommitment>::to_commitment`
(trustchain-core/src/commitment.rs lines 279-284): returns `self` unchanged
whatever expected data is passed. -/
def TimestampCommitment.to_commitment (t : TimestampCommitment) (expected_data : Json) :
    TimestampCommitment :=
  t

/-- Model of the `eprintln!` branch of
`<TimestampCommitment as TrivialCommitment>::to_commitment`
(trustchain-core/src/commitment.rs lines 280-282): a warning is printed
exactly when the passed expected data differs from the stored one. -/
def TimestampCommitment.to_commitment_warns (t : TimestampCommitment)
    (expected_data : Json) : Bool :=
  !(expected_data == t.expected_data)

/-- Modelled from the spec: the ION method prefix constant of the
trustchain-ion crate root (the crate root file is not among the repository
files given; the spec lists the wire-visible constants). -/
def ION_METHOD : String := "ion"

/-- Modelled from the spec: the DID delimiter constant of the
trustchain-ion crate root. -/
def DID_DELIMITER : String := ":"

/-- Modelled from the spec: the delimiter between operation count and CID in
ION OP_RETURN data, from the trustchain-ion crate root. -/
def ION_OPERATION_COUNT_DELIMITER : String := "."

/-- Modelled from the spec: the key under which the OP_RETURN CID is
returned, from the trustchain-ion crate root. -/
def CID_KEY : String := "cid"

/-- Model of a Bitcoin script as its raw bytes. -/
abbrev Script := List Nat

/-- Model of the external `bitcoin::Script::is_op_return`: the script's
first byte is the OP_RETURN opcode (0x6a). -/
def Script.is_op_return (s : Script) : Bool := s.head? == some 0x6a

/-- Model of the part of `bitcoin::TxOut` the decoder reads. -/
structure TxOut where
  script_pubkey : Script

/-- Model of the part of `bitcoin::Transaction` the decoder reads. -/
structure Transaction where
  output : List TxOut

/-- Model of `op_return_str.find(&ion_substr)` fused with the slice
`&op_return_str[i..]` (trustchain-ion/src/commitment.rs lines 136-139): the
suffix of the character list starting at the first occurrence of `pat`, if
any. -/
def findSuffix (pat : List Char) : List Char → Option (List Char)
  | [] => if pat.isPrefixOf ([] : List Char) then some [] else none
  | c :: tl => if pat.isPrefixOf (c :: tl) then some (c :: tl) else findSuffix pat tl

/-- Model of `str::rsplit_once` with a one-character delimiter: the parts
before and after the last occurrence of `c`, if any. -/
def rsplitOnce (c : Char) : List Char → Option (List Char × List Char)
  | [] => none
  | hd :: tl =>
      match rsplitOnce c tl with
      | some (a, b) => some (hd :: a, b)
      | none => if hd = c then some ([], tl) else none

/-- Model of the `for script in &op_return_scripts` loop of
`TxCommitment::decode_candidate_data` (trustchain-ion/src/commitment.rs
lines 134-152): scripts that are not UTF-8 or do not contain `ion:` are
skipped; the first `ion:` suffix is kept; a second one raises
`DataDecodingError`.  `utf8Decode` models `std::str::from_utf8`. -/
def ionLoop (utf8Decode : List Nat → Option String) :
    List Script → List Char → Except CommitmentError (List Char)
  | [], op_return_data => .ok op_return_data
  | script :: rest, op_return_data =>
      match utf8Decode script with
      | none => ionLoop utf8Decode rest op_return_data
      | some op_return_str =>
          match findSuffix (ION_METHOD ++ DID_DELIMITER).data op_return_str.data with
          | none => ionLoop utf8Decode rest op_return_data
          | some suffix =>
              if op_return_data.length == 0 then ionLoop utf8Decode rest suffix
              else .error .DataDecodingError

/-- Model of `format!(r#"{{"{}":"{}"}}"#, CID_KEY, cid)`
(trustchain-ion/src/commitment.rs line 162). -/
def cidJsonString (cid : String) : String :=
  "\x7b\"" ++ CID_KEY ++ "\":\"" ++ cid ++ "\"\x7d"

/-- Model of the `filter_map` collecting the output scripts that contain an
OP_RETURN (trustchain-ion/src/commitment.rs lines 120-128). -/
def opReturnScripts (tx : Transaction) : List Script :=
  tx.output.filterMap
    (fun x => if x.script_pubkey.is_op_return then some x.script_pubkey else none)

/-- Model of `TxCommitment::decode_candidate_data`
(trustchain-ion/src/commitment.rs lines 109-169).  `deserialize` models the
external `bitcoin` transaction deserialiser, `utf8Decode` models
`std::str::from_utf8`, `from_str` models `serde_json::from_str`.  The two
`rsplit_once(...).unwrap()` calls panic when the delimiter (`DID_DELIMITER`
then `ION_OPERATION_COUNT_DELIMITER`) is absent, modelled by `none`. -/
def TxCommitment.decode_candidate_data
    (deserialize : List Nat → Option Transaction)
    (utf8Decode : List Nat → Option String)
    (from_str : String → Option Json)
    (candidate_data : List Nat) : Option (Except CommitmentError Json) :=
  match deserialize candidate_data with
  | none => some (.error .FailedToComputeHash)
  | some tx =>
      match ionLoop utf8Decode (opReturnScripts tx) [] with
      | .error e => some (.error e)
      | .ok op_return_data =>
          if op_return_data.length == 0 then some (.error .DataDecodingError)
          else
            match rsplitOnce ':' op_return_data with
            | none => none
            | some (_, operation_count_plus_cid) =>
                match rsplitOnce '.' operation_count_plus_cid with
                | none => none
                | some (_, cid) =>
                    match from_str (cidJsonString ⟨cid⟩) with
                    | some value => some (.ok value)
                    | none => some (.error .DataDecodingError)

/-- Model of `IpfsCommitment::decode_candidate_data`
(trustchain-ion/src/commitment.rs lines 42-60).  `gzipDecode` models the
external `GzDecoder::read_to_string`, `from_str` models
`serde_json::from_str`; either failure yields `DataDecodingError`. -/
def IpfsCommitment.decode_candidate_data
    (gzipDecode : List Nat → Option String)
    (from_str : String → Option Json)
    (candidate_data : List Nat) : Except CommitmentError Json :=
  match gzipDecode candidate_data with
  | some ipfs_content_str =>
      match from_str ipfs_content_str with
      | some value => .ok value
      | none => .error .DataDecodingError
  | none => .error .DataDecodingError

/-- Model of the upcast of a `TimestampCommitment` to a boxed
`dyn Commitment` trait object (the trait implementations at
trustchain-core/src/commitment.rs lines 266-291). -/
def TimestampCommitment.toCommitment (t : TimestampCommitment) : Commitment where
  hasher := t.hasher
  candidate_data := t.candidate_data
  decode_candidate_data := t.decode_candidate_data
  expected_data := t.expected_data
  typeName := "TimestampCommitment"

/-- A script decodes as UTF-8 and its rendering contains the `ion:`
substring: the scripts the decoder's loop does not skip. -/
def isIonScript (utf8Decode : List Nat → Option String) (s : Script) : Bool :=
  match utf8Decode s with
  | some str => (findSuffix (ION_METHOD ++ DID_DELIMITER).data str.data).isSome
  | none => false

/-- The chaining relation walked by `ChainedCommitment::verify`: the next
commitment's expected data is a JSON string against which the current
commitment verifies. -/
def pairVerified (c next : Commitment) : Prop :=
  ∃ s, next.expected_data = .str s ∧ c.verify s = .ok ()

/-- Fixture: a commitment that hashes to "h0", decodes to JSON null and
expects null, so that its verification succeeds against target "h0". -/
def cBase : Commitment where
  hasher := fun _ => .ok "h0"
  candidate_data := []
  decode_candidate_data := fun _ => .ok .null
  expected_data := .null
  typeName := "Base"

/-- Fixture: a commitment whose decoded candidate (null) does not contain
its expected data (true), so content verification fails. -/
def cexFirst : Commitment where
  hasher := fun _ => .ok "h0"
  candidate_data := []
  decode_candidate_data := fun _ => .ok .null
  expected_data := .bool true
  typeName := "First"

/-- Fixture: a commitment whose expected data is not a JSON string. -/
def cexSecond : Commitment where
  hasher := fun _ => .ok "h1"
  candidate_data := []
  decode_candidate_data := fun _ => .ok .null
  expected_data := .num 0
  typeName := "Second"

/-- Fixture: a timestamp commitment with stored Unix time 0; appending it to
a chain leaves its expected data at `num 0` whatever `append` passes. -/
def exTimestamp : TimestampCommitment where
  timestamp := 0
  expected_data := .num 0
  hasher := fun _ => .ok "hT"
  candidate_data := []
  decode_candidate_data := fun _ => .ok (.num 0)

/-- Fixture: a promotion closure that honours the expected data it is given,
as a well-behaved `TrivialCommitment::to_commitment` does. -/
def exHonestPromote : Json → Commitment := fun v =>
  { hasher := fun _ => .ok "h1"
    candidate_data := []
    decode_candidate_data := fun _ => .ok .null
    expected_data := v
    typeName := "Promoted" }

/-- Fixture: an OP_RETURN script whose bytes are the ASCII rendering of
"jion:3.Qm" (the leading byte 106 = 0x6a is the OP_RETURN opcode, and
happens to render as the letter j). -/
def exScript : Script := [106, 105, 111, 110, 58, 51, 46, 81, 109]

/-- Fixture: a transaction with a single output carrying `exScript`. -/
def exTx : Transaction := ⟨[⟨exScript⟩]⟩

/-- Fixture: a UTF-8 decoder defined on `exScript`. -/
def exUtf8 : List Nat → Option String :=
  fun bs => if bs = exScript then some "jion:3.Qm" else none

/-- Fixture: a transaction deserialiser that always yields `exTx`. -/
def exDeserialize : List Nat → Option Transaction := fun _ => some exTx

/-- Fixture: a JSON parser defined on the formatted CID object string. -/
def exFromStr : String → Option Json :=
  fun s => if s = cidJsonString "Qm" then some (.obj (.cons CID_KEY (.str "Qm") .nil))
    else none

/-- C2: for every commitment `c` and target `t`, `verify` fails with
`DataDecodingError` when the decoder fails on the candidate data; otherwise
with `FailedContentVerification` when the expected data is not contained in
the decoded candidate; otherwise with `FailedHashVerification` when the
computed hash differs from `t`; and succeeds when content verification
succeeds and `t` equals the computed hash. -/
theorem commitment_verify_cases (c : Commitment) (t : String) :
    (∀ e, c.decode_candidate_data c.candidate_data = .error e →
        c.verify t = .error .DataDecodingError)
  ∧ (∀ v, c.decode_candidate_data c.candidate_data = .ok v →
        json_contains v c.expected_data = false →
        c.verify t = .error (.FailedContentVerification c.typeName))
  ∧ (∀ v h, c.decode_candidate_data c.candidate_data = .ok v →
        json_contains v c.expected_data = true →
        c.hash = .ok h → h ≠ t →
        c.verify t = .error (.FailedHashVerification c.typeName))
  ∧ (∀ v, c.decode_candidate_data c.candidate_data = .ok v →
        json_contains v c.expected_data = true →
        c.hash = .ok t → c.verify t = .ok ()) := by
  refine ⟨?_, ?_, ?_, ?_⟩ <;> intros <;>
    simp_all [Commitment.verify, Commitment.verify_content]

/-- C3: the `TimestampCommitment` constructed from a `DIDCommitment` and a
Unix time copies the hasher, decoder and candidate data byte for byte, hence
has the same hash, and its expected data is the JSON value of the time. -/
theorem timestamp_commitment_binding (d : DIDCommitment) (ts : Nat) :
    (TimestampCommitment.new d ts).hasher = d.hasher
  ∧ (TimestampCommitment.new d ts).candidate_data = d.candidate_data
  ∧ (TimestampCommitment.new d ts).decode_candidate_data = d.decode_candidate_data
  ∧ (TimestampCommitment.new d ts).hash = d.toCommitment.hash
  ∧ (TimestampCommitment.new d ts).expected_data = .num ts :=
  ⟨rfl, rfl, rfl, rfl, rfl⟩

/-- C8: promoting a `TimestampCommitment` leaves it entirely unchanged for
every passed JSON value, and the warning branch fires exactly when the
passed value differs from the stored timestamp value. -/
theorem timestamp_to_commitment_noop (t : TimestampCommitment) (v : Json) :
    t.to_commitment v = t
  ∧ (t.to_commitment v).expected_data = t.expected_data
  ∧ (t.to_commitment v).candidate_data = t.candidate_data
  ∧ (t.to_commitment v).hasher = t.hasher
  ∧ (t.to_commitment v).decode_candidate_data = t.decode_candidate_data
  ∧ (t.to_commitment_warns v = true ↔ v ≠ t.expected_data) := by
  refine ⟨rfl, rfl, rfl, rfl, rfl, ?_⟩
  simp [TimestampCommitment.to_commitment_warns]

/-- C9: `get_controller` returns the controller exactly when the document's
controller field holds a single value, and fails with
`FailureToGetController` in every other case. -/
theorem get_controller_spec (doc : Document) :
    (∀ c, get_controller doc = .ok c ↔ doc.controller = some (.One c))
  ∧ (get_controller doc = .error .FailureToGetController ↔
      ∀ c, doc.controller ≠ some (.One c)) := by
  constructor
  · intro c
    cases h : doc.controller with
    | none => simp [get_controller, h]
    | some om => cases om <;> simp [get_controller, h]
  · cases h : doc.controller with
    | none => simp [get_controller, h]
    | some om => cases om <;> simp [get_controller, h]

/-- C10: promoting a `ChainedCommitment` returns the chain unchanged and
discards the passed value; its expected data remains that of its first
constituent commitment. -/
theorem chained_to_commitment_noop (ch : ChainedCommitment) (v : Json) :
    ch.to_commitment v = ch
  ∧ (ch.to_commitment v).expected_data
      = (ch.commitments.head?).map Commitment.expected_data :=
  ⟨rfl, rfl⟩

/-- C4: on a `ChainedCommitment` whose sequence of commitments is empty,
`verify` panics (the `first().unwrap()` inside the inherited
`verify_content`, reached before the emptiness check) instead of returning
`EmptyIteratedCommitment` as the specification states. -/
theorem chained_verify_empty_panics (target : String) :
    ChainedCommitment.verify ⟨[]⟩ target = none
  ∧ ChainedCommitment.verify ⟨[]⟩ target ≠ some (.error .EmptyIteratedCommitment) :=
  ⟨rfl, by simp [ChainedCommitment.verify, ChainedCommitment.verify_content]⟩

/-- C7 (TxCommitment half): when the candidate bytes do not deserialise as a
Bitcoin transaction, `TxCommitment::decode_candidate_data` returns
`FailedToComputeHash`, not the `DataDecodingError` the specification
assigns to decoding failures. -/
theorem tx_decode_deserialize_failure_kind
    (deserialize : List Nat → Option Transaction)
    (utf8Decode : List Nat → Option String) (from_str : String → Option Json)
    (bytes : List Nat) (h : deserialize bytes = none) :
    TxCommitment.decode_candidate_data deserialize utf8Decode from_str bytes
      = some (.error .FailedToComputeHash) := by
  simp [TxCommitment.decode_candidate_data, h]

/-- Witness for `tx_decode_deserialize_failure_kind` at a concrete input:
empty candidate bytes under a deserialiser that rejects them. -/
theorem tx_decode_deserialize_failure_kind_witness :
    TxCommitment.decode_candidate_data (fun _ => none) (fun _ => none) (fun _ => none) []
      = some (.error .FailedToComputeHash) :=
  tx_decode_deserialize_failure_kind (fun _ => none) (fun _ => none) (fun _ => none) [] rfl

/-- Companion fact for the IpfsCommitment half of the decoding taxonomy:
candidate bytes that fail gzip decoding, or whose decompressed text fails
JSON parsing, yield `DataDecodingError`. -/
theorem ipfs_decode_failure_kind
    (gzipDecode : List Nat → Option String) (from_str : String → Option Json)
    (bytes : List Nat) :
    (gzipDecode bytes = none →
      IpfsCommitment.decode_candidate_data gzipDecode from_str bytes
        = .error .DataDecodingError)
  ∧ (∀ s, gzipDecode bytes = some s → from_str s = none →
      IpfsCommitment.decode_candidate_data gzipDecode from_str bytes
        = .error .DataDecodingError) := by
  constructor <;> intros <;> simp_all [IpfsCommitment.decode_candidate_data]

/-- C5 counterexample: appending a `TimestampCommitment` (whose
`to_commitment` ignores the expected data it is handed) to a chain whose
hash is "h0" leaves the appended commitment's expected data at the stored
timestamp value `num 0`, so the new adjacent pair violates the chaining law
(the JSON string "h0" of the previous last hash is not its expected data). -/
theorem chained_append_chaining_law_cex :
    ChainedCommitment.hash ⟨[cBase]⟩ = some (.ok "h0")
  ∧ (ChainedCommitment.append ⟨[cBase]⟩
        (fun v => ((exTimestamp.to_commitment v).toCommitment))).map
      (Except.map (fun ch2 => ch2.commitments.map Commitment.expected_data))
      = some (.ok [Json.null, Json.num 0])
  ∧ Json.num 0 ≠ Json.str "h0" :=
  ⟨rfl, rfl, by decide⟩

/-- C5 (amended): for every trivial commitment, when the chain's hash
succeeds with `h`, `append` promotes the trivial commitment with the JSON
string of `h` before pushing it onto the sequence, and the post-append hash
is the promoted commitment's hash; when additionally the promotion honours
the expected data it is handed, the chaining law holds for the new adjacent
pair: the previous last commitment hashes to `h` and the new last
commitment's expected data is the JSON string of `h`. -/
theorem chained_append_law (ch : ChainedCommitment) (promote : Json → Commitment)
    (h : String) (hh : ch.hash = some (.ok h)) :
    ChainedCommitment.append ch promote
        = some (.ok ⟨ch.commitments ++ [promote (.str h)]⟩)
  ∧ ChainedCommitment.hash ⟨ch.commitments ++ [promote (.str h)]⟩
        = some ((promote (.str h)).hash)
  ∧ ((promote (.str h)).expected_data = .str h →
        ((ch.commitments ++ [promote (.str h)]).getLast?).map Commitment.expected_data
          = some (.str h))
  ∧ (∀ prev, ch.commitments.getLast? = some prev → prev.hash = .ok h) := by
  refine ⟨?_, ?_, ?_, ?_⟩
  · simp [ChainedCommitment.append, hh]
  · simp [ChainedCommitment.hash]
  · intro honours
    simp [honours]
  · intro prev hprev
    simp [ChainedCommitment.hash, hprev] at hh
    exact hh

/-- Witness for `chained_append_law` at a concrete input: the one-element
chain over `cBase` (hash "h0") extended by an honouring promotion. -/
theorem chained_append_law_witness :
    ChainedCommitment.append ⟨[cBase]⟩ exHonestPromote
        = some (.ok ⟨[cBase] ++ [exHonestPromote (.str "h0")]⟩)
  ∧ ChainedCommitment.hash ⟨[cBase] ++ [exHonestPromote (.str "h0")]⟩
        = some ((exHonestPromote (.str "h0")).hash)
  ∧ ((exHonestPromote (.str "h0")).expected_data = .str "h0" →
        (([cBase] ++ [exHonestPromote (.str "h0")]).getLast?).map Commitment.expected_data
          = some (.str "h0"))
  ∧ (∀ prev, [cBase].getLast? = some prev → prev.hash = .ok "h0") :=
  chained_append_law ⟨[cBase]⟩ exHonestPromote "h0" rfl

/-- Helper: unfolding of one step of the walk on success. -/
theorem chainWalk_cons_iff (target : String) (c0 c1 : Commitment) (rest' : List Commitment) :
    chainWalk target c0 (c1 :: rest') = .ok () ↔
      pairVerified c0 c1 ∧ chainWalk target c1 rest' = .ok () := by
  constructor
  · intro hw
    cases he : c1.expected_data with
    | str s =>
        simp only [chainWalk, he] at hw
        cases hv0 : c0.verify s with
        | error e => simp [hv0] at hw
        | ok u => exact ⟨⟨s, he, hv0⟩, by simpa [hv0] using hw⟩
    | null => simp [chainWalk, he] at hw
    | bool b => simp [chainWalk, he] at hw
    | num n => simp [chainWalk, he] at hw
    | arr xs => simp [chainWalk, he] at hw
    | obj kvs => simp [chainWalk, he] at hw
  · rintro ⟨⟨s, hs, hv⟩, hw⟩
    simp [chainWalk, hs, hv, hw]

/-- Helper: a successful walk starting at `c0` implies the chain's inherited
content check (which re-runs `c0`'s decode and containment, under the
chain's type name) succeeds. -/
theorem chainWalk_ok_verify_content {c0 : Commitment} {rest : List Commitment}
    {target : String} (hw : chainWalk target c0 rest = .ok ()) :
    ChainedCommitment.verify_content ⟨c0 :: rest⟩ = some (.ok ()) := by
  have hv : ∃ t', c0.verify t' = .ok () := by
    cases rest with
    | nil => exact ⟨target, hw⟩
    | cons c1 rest' =>
        obtain ⟨⟨s, _, hv⟩, _⟩ := (chainWalk_cons_iff target c0 c1 rest').mp hw
        exact ⟨s, hv⟩
  obtain ⟨t', ht'⟩ := hv
  simp only [Commitment.verify, Commitment.verify_content] at ht'
  simp only [ChainedCommitment.verify_content, List.head?_cons]
  cases hd : c0.decode_candidate_data c0.candidate_data <;> simp [hd] at ht' ⊢
  cases hc : json_contains _ c0.expected_data <;> simp_all

/-- Helper: the walk succeeds iff every adjacent pair is verified against
the next expected string and the last commitment verifies the target. -/
theorem chainWalk_ok_iff (target : String) (c0 : Commitment) (rest : List Commitment) :
    chainWalk target c0 rest = .ok () ↔
      List.Chain' pairVerified (c0 :: rest)
        ∧ ((c0 :: rest).getLast (by simp)).verify target = .ok () := by
  induction rest generalizing c0 with
  | nil => simp [chainWalk]
  | cons c1 rest' ih =>
      rw [chainWalk_cons_iff, List.chain'_cons, ih c1]
      have hlast : (c0 :: c1 :: rest').getLast (by simp) = (c1 :: rest').getLast (by simp) :=
        List.getLast_cons (by simp)
      rw [hlast]
      tauto

/-- C1 counterexample: in the chain [cexFirst, cexSecond] the first
commitment's content check fails and the second commitment's expected data
is not a JSON string, so the walk's first failure per the claim would be
`DataDecodingError`; the code instead returns the inherited content check's
`FailedContentVerification` under the chain's type name. -/
theorem chained_verify_error_kind_cex :
    ChainedCommitment.verify ⟨[cexFirst, cexSecond]⟩ "T"
      = some (.error (.FailedContentVerification chainedCommitmentTypeName))
  ∧ cexSecond.expected_data = .num 0
  ∧ ChainedCommitment.verify ⟨[cexFirst, cexSecond]⟩ "T"
      ≠ some (.error .DataDecodingError) := by
  have h1 : ChainedCommitment.verify ⟨[cexFirst, cexSecond]⟩ "T"
      = some (.error (.FailedContentVerification chainedCommitmentTypeName)) := by
    simp [ChainedCommitment.verify, ChainedCommitment.verify_content, cexFirst, json_contains]
  refine ⟨h1, rfl, ?_⟩
  rw [h1]
  simp

/-- C1 (amended): for a non-empty chain [C0, ..., Cn-1], `verify(T)`
succeeds iff each Ci verifies against the string value of Ci+1's expected
data (i < n-1) and Cn-1 verifies against T.  The walk proceeds in sequence
index order and short-circuits on the first failure, propagating its error,
except that the chain's inherited content check (C0's decode and
containment, under the chain's type name) runs first and its failure takes
precedence. -/
theorem chained_verify_characterization (c0 : Commitment) (rest : List Commitment)
    (target : String) :
    (ChainedCommitment.verify ⟨c0 :: rest⟩ target = some (.ok ()) ↔
      (∀ i : Nat, (hi : i + 1 < (c0 :: rest).length) →
          ∃ s, ((c0 :: rest).get ⟨i + 1, hi⟩).expected_data = .str s
            ∧ ((c0 :: rest).get ⟨i, Nat.lt_of_succ_lt hi⟩).verify s = .ok ())
        ∧ ((c0 :: rest).getLast (by simp)).verify target = .ok ())
  ∧ (∀ e, ChainedCommitment.verify_content ⟨c0 :: rest⟩ = some (.error e) →
        ChainedCommitment.verify ⟨c0 :: rest⟩ target = some (.error e))
  ∧ (ChainedCommitment.verify_content ⟨c0 :: rest⟩ = some (.ok ()) →
        ChainedCommitment.verify ⟨c0 :: rest⟩ target = some (chainWalk target c0 rest)) := by
  have hconv : (∀ i : Nat, (hi : i + 1 < (c0 :: rest).length) →
      ∃ s, ((c0 :: rest).get ⟨i + 1, hi⟩).expected_data = .str s
        ∧ ((c0 :: rest).get ⟨i, Nat.lt_of_succ_lt hi⟩).verify s = .ok ()) ↔
      List.Chain' pairVerified (c0 :: rest) := by
    rw [List.chain'_iff_get]
    constructor
    · intro h i hi
      exact h i (by omega)
    · intro h i hi
      exact h i (by omega)
  refine ⟨?_, ?_, ?_⟩
  · constructor
    · intro hok
      have hw : chainWalk target c0 rest = .ok () := by
        cases hvc : ChainedCommitment.verify_content ⟨c0 :: rest⟩ with
        | none => simp [ChainedCommitment.verify, hvc] at hok
        | some r =>
            cases r with
            | error e => simp [ChainedCommitment.verify, hvc] at hok
            | ok u => simpa [ChainedCommitment.verify, hvc] using hok
      obtain ⟨hch, hlast⟩ := (chainWalk_ok_iff target c0 rest).mp hw
      exact ⟨hconv.mpr hch, hlast⟩
    · rintro ⟨hidx, hlast⟩
      have hw : chainWalk target c0 rest = .ok () :=
        (chainWalk_ok_iff target c0 rest).mpr ⟨hconv.mp hidx, hlast⟩
      have hvc := chainWalk_ok_verify_content hw
      simp [ChainedCommitment.verify, hvc, hw]
  · intro e he
    simp [ChainedCommitment.verify, he]
  · intro hvc
    simp [ChainedCommitment.verify, hvc]

/-- Helper: a found suffix starts with the pattern searched for. -/
theorem findSuffix_isPrefixOf {pat l s : List Char} (h : findSuffix pat l = some s) :
    pat.isPrefixOf s = true := by
  induction l with
  | nil =>
      simp only [findSuffix] at h
      split at h
      · cases h; assumption
      · cases h
  | cons c tl ih =>
      simp only [findSuffix] at h
      split at h
      · cases h; assumption
      · exact ih h

/-- Helper: a suffix found for a non-empty pattern is non-empty. -/
theorem findSuffix_ne_nil {pat l s : List Char} (hpat : pat ≠ [])
    (h : findSuffix pat l = some s) : s ≠ [] := by
  have hp := findSuffix_isPrefixOf h
  rw [List.isPrefixOf_iff_prefix] at hp
  obtain ⟨t, ht⟩ := hp
  intro hs
  rw [hs] at ht
  exact hpat (List.append_eq_nil.mp ht).1

/-- Helper: no split is found when the delimiter does not occur. -/
theorem rsplitOnce_eq_none {c : Char} {l : List Char} (h : c ∉ l) :
    rsplitOnce c l = none := by
  induction l with
  | nil => rfl
  | cons hd tl ih =>
      have hhd : ¬hd = c := fun he => h (by simp [he])
      simp only [rsplitOnce, ih (fun hm => h (List.mem_cons_of_mem hd hm)), hhd]
      simp [hhd]

/-- Helper: `rsplit_once` cuts at the last occurrence of the delimiter. -/
theorem rsplitOnce_append (c : Char) (l1 : List Char) {l2 : List Char} (h : c ∉ l2) :
    rsplitOnce c (l1 ++ c :: l2) = some (l1, l2) := by
  induction l1 with
  | nil => simp [rsplitOnce, rsplitOnce_eq_none h]
  | cons hd tl ih => simp [rsplitOnce, ih]

/-- Helper: an ION script yields a UTF-8 string containing the `ion:`
substring. -/
theorem isIonScript_elim {utf8Decode : List Nat → Option String} {s : Script}
    (h : isIonScript utf8Decode s = true) :
    ∃ str suf, utf8Decode s = some str
      ∧ findSuffix (ION_METHOD ++ DID_DELIMITER).data str.data = some suf := by
  unfold isIonScript at h
  cases hu : utf8Decode s with
  | none =>
      simp only [hu] at h
      exact Bool.noConfusion h
  | some str =>
      simp only [hu] at h
      cases hf : findSuffix (ION_METHOD ++ DID_DELIMITER).data str.data with
      | none => rw [hf] at h; simp at h
      | some suf => exact ⟨str, suf, rfl, hf⟩

/-- Helper: the decoder's loop ignores a leading run of non-ION scripts. -/
theorem ionLoop_skip {utf8Decode : List Nat → Option String} {l1 : List Script}
    (rest : List Script) (acc : List Char)
    (h : ∀ x ∈ l1, isIonScript utf8Decode x = false) :
    ionLoop utf8Decode (l1 ++ rest) acc = ionLoop utf8Decode rest acc := by
  induction l1 with
  | nil => rfl
  | cons s l1' ih =>
      have hs := h s (by simp)
      have hrest : ∀ x ∈ l1', isIonScript utf8Decode x = false :=
        fun x hx => h x (by simp [hx])
      unfold isIonScript at hs
      simp only [List.cons_append, ionLoop]
      cases hu : utf8Decode s with
      | none => exact ih hrest
      | some str =>
          simp only [hu] at hs
          cases hf : findSuffix (ION_METHOD ++ DID_DELIMITER).data str.data with
          | none =>
              simp only [hf]
              exact ih hrest
          | some suf =>
              rw [hf] at hs
              simp at hs

/-- Helper: with a non-empty accumulator, any further ION script makes the
loop fail with `DataDecodingError`. -/
theorem ionLoop_second_ion_errors {utf8Decode : List Nat → Option String}
    (scripts : List Script) (acc : List Char) (hacc : acc ≠ [])
    (hion : ∃ x ∈ scripts, isIonScript utf8Decode x = true) :
    ionLoop utf8Decode scripts acc = .error .DataDecodingError := by
  induction scripts with
  | nil => simp at hion
  | cons s rest ih =>
      obtain ⟨x, hx, hxi⟩ := hion
      have hlen : (acc.length == 0) = false := by
        cases acc
        · exact absurd rfl hacc
        · rfl
      cases hu : utf8Decode s with
      | none =>
          have hstep : ionLoop utf8Decode (s :: rest) acc = ionLoop utf8Decode rest acc := by
            simp only [ionLoop, hu]
          rw [hstep]
          rcases List.mem_cons.mp hx with h | h
          · subst h
            unfold isIonScript at hxi
            simp only [hu] at hxi
            exact Bool.noConfusion hxi
          · exact ih ⟨x, h, hxi⟩
      | some str =>
          cases hf : findSuffix (ION_METHOD ++ DID_DELIMITER).data str.data with
          | none =>
              have hstep : ionLoop utf8Decode (s :: rest) acc = ionLoop utf8Decode rest acc := by
                simp only [ionLoop, hu, hf]
              rw [hstep]
              rcases List.mem_cons.mp hx with h | h
              · subst h
                unfold isIonScript at hxi
                simp only [hu] at hxi
                rw [hf] at hxi
                simp at hxi
              · exact ih ⟨x, h, hxi⟩
          | some suf =>
              simp only [ionLoop, hu, hf, hlen]
              simp

/-- Helper: the loop over a sequence with a single ION script returns that
script's `ion:` suffix. -/
theorem ionLoop_unique_ion {utf8Decode : List Nat → Option String}
    {l1 l2 : List Script} {s : Script} {str : String} {suf : List Char}
    (h1 : ∀ x ∈ l1, isIonScript utf8Decode x = false)
    (h2 : ∀ x ∈ l2, isIonScript utf8Decode x = false)
    (hu : utf8Decode s = some str)
    (hf : findSuffix (ION_METHOD ++ DID_DELIMITER).data str.data = some suf) :
    ionLoop utf8Decode (l1 ++ s :: l2) [] = .ok suf := by
  rw [ionLoop_skip (s :: l2) [] h1]
  have hl2 : ionLoop utf8Decode l2 suf = .ok suf := by
    have := @ionLoop_skip utf8Decode l2 [] suf h2
    rw [List.append_nil] at this
    rw [this]
    rfl
  simp only [ionLoop, hu, hf]
  simpa using hl2

/-- Helper: two or more ION scripts make the loop fail with
`DataDecodingError`. -/
theorem ionLoop_multi_ion_errors {utf8Decode : List Nat → Option String}
    (scripts : List Script)
    (h2 : 2 ≤ scripts.countP (isIonScript utf8Decode)) :
    ionLoop utf8Decode scripts [] = .error .DataDecodingError := by
  induction scripts with
  | nil => simp [List.countP_nil] at h2
  | cons s rest ih =>
      cases hsi : isIonScript utf8Decode s with
      | false =>
          have hstep : ionLoop utf8Decode (s :: rest) [] = ionLoop utf8Decode rest [] := by
            have := @ionLoop_skip utf8Decode [s] rest [] (by simp [hsi])
            simpa using this
          rw [hstep]
          apply ih
          have := List.countP_cons_of_neg (isIonScript utf8Decode) rest
            (a := s) (by simp [hsi])
          omega
      | true =>
          obtain ⟨str, suf, hu, hf⟩ := isIonScript_elim hsi
          have hsufne : suf ≠ [] := findSuffix_ne_nil (by decide) hf
          have hstep : ionLoop utf8Decode (s :: rest) [] = ionLoop utf8Decode rest suf := by
            simp only [ionLoop, hu, hf]
            rfl
          rw [hstep]
          apply ionLoop_second_ion_errors rest suf hsufne
          have hcount := List.countP_cons_of_pos (isIonScript utf8Decode) rest
            (a := s) hsi
          exact List.countP_pos_iff.mp (by omega)

/-- C6: on candidate bytes that deserialise to a transaction `tx`, the
decoder fails with `DataDecodingError` when zero or at least two of the
OP_RETURN scripts are ION scripts, and when exactly one is — its UTF-8
rendering containing `ion:` followed by data of the shape
`<operation-count>.<cid>` — it returns the JSON object mapping `CID_KEY` to
the trailing CID. -/
theorem tx_decode_op_return_cases
    (deserialize : List Nat → Option Transaction)
    (utf8Decode : List Nat → Option String)
    (from_str : String → Option Json)
    (bytes : List Nat) (tx : Transaction)
    (hdeser : deserialize bytes = some tx) :
    ((opReturnScripts tx).countP (isIonScript utf8Decode) = 0 →
        TxCommitment.decode_candidate_data deserialize utf8Decode from_str bytes
          = some (.error .DataDecodingError))
  ∧ (2 ≤ (opReturnScripts tx).countP (isIonScript utf8Decode) →
        TxCommitment.decode_candidate_data deserialize utf8Decode from_str bytes
          = some (.error .DataDecodingError))
  ∧ (∀ s str (oc cid : List Char),
        (opReturnScripts tx).countP (isIonScript utf8Decode) = 1 →
        s ∈ opReturnScripts tx →
        utf8Decode s = some str →
        findSuffix (ION_METHOD ++ DID_DELIMITER).data str.data
          = some ((ION_METHOD ++ DID_DELIMITER).data ++ oc ++ '.' :: cid) →
        ':' ∉ oc ++ '.' :: cid →
        '.' ∉ cid →
        from_str (cidJsonString ⟨cid⟩) = some (.obj (.cons CID_KEY (.str ⟨cid⟩) .nil)) →
        TxCommitment.decode_candidate_data deserialize utf8Decode from_str bytes
          = some (.ok (.obj (.cons CID_KEY (.str ⟨cid⟩) .nil)))) := by
  refine ⟨?_, ?_, ?_⟩
  · intro h0
    have hall : ∀ x ∈ opReturnScripts tx, isIonScript utf8Decode x = false := by
      intro x hx
      simpa using List.countP_eq_zero.mp h0 x hx
    have hloop : ionLoop utf8Decode (opReturnScripts tx) [] = .ok [] := by
      have := @ionLoop_skip utf8Decode (opReturnScripts tx) [] [] hall
      rw [List.append_nil] at this
      rw [this]
      rfl
    unfold TxCommitment.decode_candidate_data
    simp only [hdeser, hloop]
    rfl
  · intro h2
    unfold TxCommitment.decode_candidate_data
    simp only [hdeser, ionLoop_multi_ion_errors _ h2]
  · intro s str oc cid h1 hmem hu hf hcolon hdot hjson
    have hsi : isIonScript utf8Decode s = true := by
      unfold isIonScript
      simp only [hu, hf]
      rfl
    obtain ⟨l1, l2, hsplit⟩ := List.append_of_mem hmem
    have hc := h1
    rw [hsplit, List.countP_append,
      List.countP_cons_of_pos (isIonScript utf8Decode) l2 (a := s) hsi] at hc
    have hl1 : ∀ x ∈ l1, isIonScript utf8Decode x = false := by
      have hz : l1.countP (isIonScript utf8Decode) = 0 := by omega
      intro x hx
      simpa using List.countP_eq_zero.mp hz x hx
    have hl2 : ∀ x ∈ l2, isIonScript utf8Decode x = false := by
      have hz : l2.countP (isIonScript utf8Decode) = 0 := by omega
      intro x hx
      simpa using List.countP_eq_zero.mp hz x hx
    have hloop := ionLoop_unique_ion hl1 hl2 hu hf
    have hdata : (ION_METHOD ++ DID_DELIMITER).data = ['i', 'o', 'n', ':'] := rfl
    have hlenf : (((ION_METHOD ++ DID_DELIMITER).data ++ oc ++ '.' :: cid).length == 0)
        = false := by
      rw [hdata]
      rfl
    have hshape : (ION_METHOD ++ DID_DELIMITER).data ++ oc ++ '.' :: cid
        = ['i', 'o', 'n'] ++ ':' :: (oc ++ '.' :: cid) := by
      rw [hdata]
      simp
    have hr1 : rsplitOnce ':' ((ION_METHOD ++ DID_DELIMITER).data ++ oc ++ '.' :: cid)
        = some (['i', 'o', 'n'], oc ++ '.' :: cid) := by
      rw [hshape]
      exact rsplitOnce_append ':' ['i', 'o', 'n'] hcolon
    have hr2 : rsplitOnce '.' (oc ++ '.' :: cid) = some (oc, cid) :=
      rsplitOnce_append '.' oc hdot
    unfold TxCommitment.decode_candidate_data
    simp only [hdeser]
    rw [hsplit]
    simp only [hloop, hlenf, hr1, hr2, hjson]
    rfl

/-- Witness for `tx_decode_op_return_cases` at a concrete input: a
transaction with a single ION OP_RETURN script rendering as "jion:3.Qm"
decodes to the object mapping `CID_KEY` to "Qm". -/
theorem tx_decode_op_return_cases_witness :
    TxCommitment.decode_candidate_data exDeserialize exUtf8 exFromStr [0]
      = some (.ok (.obj (.cons CID_KEY (.str "Qm") .nil))) :=
  (tx_decode_op_return_cases exDeserialize exUtf8 exFromStr [0] exTx rfl).2.2
    exScript "jion:3.Qm" ['3'] ['Q', 'm']
    (by decide) (by decide) (by decide) (by decide) (by decide) (by decide) (by decide)
